import Mathlib

/-!
Verification of the search/evaluation core of the Lifish-HalfKP chess engine
(files `src/search.cpp`, `src/evaluate.cpp`, `src/evaluate.h`).

The C++ code is shallowly embedded: pure helper functions become Lean
functions over `Int`/`Nat`; the stateful search functions become Lean
functions over explicit environment records whose fields stand for the
values the C++ code reads from the `Position`, the transposition table,
the stack frames and the thread state; transposition-table stores are
made explicit as a returned list of `TTWrite` records.

Machine integers are modelled as unbounded `Int`: every quantity involved
(scores bounded by `VALUE_NONE = 32002`, depths bounded by 128) is far from
the 32-bit overflow boundary, so C++ `int` arithmetic agrees with `Int`.
C++ integer division truncates towards zero, so `/` on values that may be
negative is embedded as `Int.tdiv`.
-/

/-!
## Part 1: the embedded definitions
-/

/-! ### Basic engine constants

The enum constants below come from the engine headers (`types.h`), which are
not part of the provided sources; `Tempo` is from `evaluate.h` which is.
Modelled from the spec: `Value` constants `VALUE_DRAW = 0`, `VALUE_INFINITE`,
`VALUE_MATE`, the sentinels `VALUE_NONE`, `MOVE_NONE`, the thresholds
`VALUE_MATE_IN_MAX_PLY = VALUE_MATE - 2*MAX_PLY` and its negation,
`mate_in(ply) = VALUE_MATE - ply`, `mated_in(ply) = -VALUE_MATE + ply`,
depth sentinels `DEPTH_ZERO`, `DEPTH_QS_CHECKS`, `DEPTH_QS_NO_CHECKS`,
`DEPTH_NONE`, the `ONE_PLY` depth unit, and the TT bound kinds encoded in
two bits with `BOUND_EXACT = BOUND_UPPER | BOUND_LOWER`.  The numeric
values are the standard Stockfish ones this engine is derived from. -/

def ONE_PLY : Int := 1

def MAX_PLY : Nat := 128

def DEPTH_ZERO : Int := 0

def DEPTH_QS_CHECKS : Int := 0

def DEPTH_QS_NO_CHECKS : Int := -1

def DEPTH_NONE : Int := -6

def VALUE_ZERO : Int := 0

def VALUE_DRAW : Int := 0

def VALUE_KNOWN_WIN : Int := 10000

def VALUE_MATE : Int := 32000

def VALUE_INFINITE : Int := 32001

def VALUE_NONE : Int := 32002

def VALUE_MATE_IN_MAX_PLY : Int := VALUE_MATE - 2 * 128

def VALUE_MATED_IN_MAX_PLY : Int := -VALUE_MATE + 2 * 128

def MOVE_NONE : Nat := 0

def BOUND_NONE : Nat := 0

def BOUND_UPPER : Nat := 1

def BOUND_LOWER : Nat := 2

def BOUND_EXACT : Nat := 3

/-- Side-to-move tempo bonus, `evaluate.h` line 32: `Tempo = Value(20)`. -/
def Tempo : Int := 20

/-- Mate score helper, modelled from the spec: `mate_in(ply) = VALUE_MATE - ply`. -/
def mate_in (ply : Nat) : Int := VALUE_MATE - ply

/-- Mated score helper, modelled from the spec: `mated_in(ply) = -VALUE_MATE + ply`. -/
def mated_in (ply : Nat) : Int := -VALUE_MATE + ply

/-! ### search.cpp: value_to_tt / value_from_tt (lines 1251-1269) -/

/-- Embedding of `value_to_tt` (`search.cpp` 1251-1257): adjusts a mate score
from "plies to mate from the root" to "plies to mate from the current
position" before it is stored in the transposition table. -/
def value_to_tt (v : Int) (ply : Nat) : Int :=
  if v ≥ VALUE_MATE_IN_MAX_PLY then v + ply
  else if v ≤ VALUE_MATED_IN_MAX_PLY then v - ply
  else v

/-- Embedding of `value_from_tt` (`search.cpp` 1264-1269): the inverse
adjustment, applied to a value read from the transposition table;
`VALUE_NONE` is passed through unchanged. -/
def value_from_tt (v : Int) (ply : Nat) : Int :=
  if v = VALUE_NONE then VALUE_NONE
  else if v ≥ VALUE_MATE_IN_MAX_PLY then v - ply
  else if v ≤ VALUE_MATED_IN_MAX_PLY then v + ply
  else v

/-! ### evaluate.cpp: Score and evaluate_initiative (lines 885-904) -/

/-- A packed middlegame/endgame score pair; addition is component-wise
(`types.h` operators on `Score`, as described by the spec data model). -/
structure Score where
  mg : Int
  eg : Int
  deriving DecidableEq

instance : Add Score := ⟨fun a b => ⟨a.mg + b.mg, a.eg + b.eg⟩⟩

/-- Constructor `make_score(mg, eg)`. -/
def make_score (m e : Int) : Score := ⟨m, e⟩

/-- Projection `mg_value`. -/
def mg_value (s : Score) : Int := s.mg

/-- Projection `eg_value`. -/
def eg_value (s : Score) : Int := s.eg

/-- The sign expression `((eg > 0) - (eg < 0))` from `evaluate.cpp` line 898. -/
def cppSign (x : Int) : Int := (if 0 < x then 1 else 0) - (if x < 0 then 1 else 0)

/-- Embedding of `Evaluation::evaluate_initiative` (`evaluate.cpp` 885-904).
Inputs are the quantities the function reads from the position and the pawn
hash entry: `pe->pawn_asymmetry()`, the file and rank distances between the
two kings, `pos.count<PAWN>()`, and the both-flanks test on the pawn
bitboard.  Returns `make_score(0, v)` exactly as the source does. -/
def evaluate_initiative (pawnAsymmetry fileDistance rankDistance pawnCount : Int)
    (bothFlanks : Bool) (eg : Int) : Score :=
  let kingDistance := fileDistance - rankDistance
  let initiative := 8 * (pawnAsymmetry + kingDistance - 17) + 12 * pawnCount
      + 16 * (if bothFlanks then 1 else 0)
  let v := cppSign eg * max initiative (-|eg|)
  make_score 0 v

/-! ### evaluate.cpp: thresholds and the lazy exit of Evaluation::value
(lines 363-370 and 947-1022) -/

/-- Threshold for the lazy evaluation exit (`evaluate.cpp` line 363). -/
def LazyThreshold : Int := 1500

/-- Constant defined at `evaluate.cpp` line 366; referenced nowhere else in
the sources. -/
def LazyThreshold1 : Int := 1565

/-- Constant defined at `evaluate.cpp` line 367; referenced nowhere else in
the sources. -/
def LazyThreshold2 : Int := 1102

/-- Environment of `Evaluation::value` (`evaluate.cpp` 947-1022) up to the
lazy exit: the result of the material-table probe, the three seed scores and
the side to move. -/
structure EvalPos where
  /-- Result of `me->evaluate(pos)` when `me->specialized_eval_exists()`,
  otherwise `none`. -/
  specializedEval : Option Int
  /-- Incremental `pos.psq_score()`. -/
  psqScore : Score
  /-- Material imbalance `me->imbalance()`. -/
  imbalance : Score
  /-- Pawn-structure score `pe->pawns_score()`. -/
  pawnsScore : Score
  /-- Whether `pos.side_to_move() == WHITE`. -/
  whiteToMove : Bool

/-- Embedding of the head of `Evaluation::value` (`evaluate.cpp` 947-1022):
material-table specialization, score seeding, and the lazy exit.  The rest
of the function (steps 5-14 of the evaluation: piece terms, king safety,
threats, passed pawns, space, initiative, scaling, interpolation) is
abstracted as the continuation `rest`, applied to the seeded score; it is
unreachable when the lazy exit fires.  The two unused threshold constants
`LazyThreshold1`/`LazyThreshold2` are taken as explicit parameters `lt1`,
`lt2` precisely so that independence of the classical path from them is
expressible: the body never consults them, exactly as the source never
reads the homonymous constants on this path. -/
def Evaluation.value (lt1 lt2 : Int) (P : EvalPos) (rest : Score → Int) : Int :=
  match P.specializedEval with
  | some v => v
  | none =>
    let score := P.psqScore + P.imbalance + P.pawnsScore
    let v := Int.tdiv (mg_value score + eg_value score) 2
    if |v| > LazyThreshold then (if P.whiteToMove then v else -v)
    else rest score

/-! ### search.cpp: killer-move update in update_stats (lines 1315-1322) -/

/-- Embedding of the killer-move shuffle at the head of `update_stats`
(`search.cpp` 1318-1322): the pair is `(killers[0], killers[1])`; when the
new best quiet move differs from `killers[0]`, `killers[1]` receives the
old `killers[0]` and `killers[0]` the move. -/
def update_stats_killers (k : Nat × Nat) (move : Nat) : Nat × Nat :=
  if k.1 ≠ move then (move, k.1) else k

/-- Invariant claimed for the killer pair: the two slots differ unless both
are still `MOVE_NONE`. -/
def killersInv (k : Nat × Nat) : Prop :=
  k.1 ≠ k.2 ∨ (k.1 = MOVE_NONE ∧ k.2 = MOVE_NONE)

/-! ### search.cpp: aspiration windows in Thread::search (lines 301-364) -/

/-- Initial aspiration window of one MultiPV iteration (`search.cpp`
307-312): for `rootDepth ≥ 5 * ONE_PLY` the window is
`[previousScore - 18, previousScore + 18]` clamped to `±VALUE_INFINITE`
with `delta = 18`; otherwise `alpha`, `beta`, `delta` keep their previous
values (`alpha0`, `beta0`, `delta0`). -/
def aspirationWindow (rootDepth previousScore alpha0 beta0 delta0 : Int) :
    Int × Int × Int :=
  if rootDepth ≥ 5 * ONE_PLY then
    (max (previousScore - 18) (-VALUE_INFINITE), min (previousScore + 18) VALUE_INFINITE, 18)
  else (alpha0, beta0, delta0)

/-- Embedding of the aspiration re-search loop (`search.cpp` 317-364).
`sf k alpha beta` stands for the value of the `k`-th call
`search<PV>(rootPos, ss, alpha, beta, rootDepth, false, false)` (the TT and
histories evolve between calls, hence the iteration index), and `stopAt k`
for the value of `Threads.stop` read right after that call.  `fuel` bounds
the number of re-searches so the recursion is structural; the claims below
are about the loop's step behaviour, which is independent of the bound. -/
def aspirationLoop (sf : Nat → Int → Int → Int) (stopAt : Nat → Bool) :
    Nat → Nat → Int → Int → Int → Int
  | 0, k, alpha, beta, _ => sf k alpha beta
  | fuel + 1, k, alpha, beta, delta =>
    let best := sf k alpha beta
    if stopAt k then best
    else if best ≤ alpha then
      aspirationLoop sf stopAt fuel (k + 1) (max (best - delta) (-VALUE_INFINITE))
        (Int.tdiv (alpha + beta) 2) (delta + Int.tdiv delta 4 + 5)
    else if best ≥ beta then
      aspirationLoop sf stopAt fuel (k + 1) alpha (min (best + delta) VALUE_INFINITE)
        (delta + Int.tdiv delta 4 + 5)
    else best

/-! ### search.cpp: best-thread selection in MainThread::search (lines 217-231) -/

/-- The per-thread data the coordinator compares: `rootMoves[0].score` and
`completedDepth`. -/
structure ThreadResult where
  score : Int
  completedDepth : Int
  deriving DecidableEq

/-- One comparison of the selection loop (`search.cpp` 221-230): the
candidate `th` replaces the running best when `scoreDiff > 0` and
(`depthDiff ≥ 0` or the candidate's score is a proven mate). -/
def selectStep (best th : ThreadResult) : ThreadResult :=
  if th.score - best.score > 0 ∧
      (th.completedDepth - best.completedDepth ≥ 0 ∨ th.score ≥ VALUE_MATE_IN_MAX_PLY)
  then th else best

/-- Embedding of the coordinator's best-thread pick (`search.cpp` 217-231):
starting from the main thread, fold the comparison over the thread list;
the whole selection is guarded by `MultiPV == 1` and a non-null first root
move of the main thread. -/
def pickBestThread (multiPV : Nat) (mainPvMove : Nat) (main : ThreadResult)
    (threads : List ThreadResult) : ThreadResult :=
  if multiPV = 1 ∧ mainPvMove ≠ MOVE_NONE then threads.foldl selectStep main
  else main

/-! ### search.cpp: reduction tables (lines 63-69 and Search::init 123-144) -/

/-- Embedding of the `Reductions[pv][imp][d][mc]` table filled by
`Search::init` (`search.cpp` 123-137).  The base quantity
`int(std::round(log(d) * log(mc) / 1.95))` is floating-point; it is
abstracted as the parameter `rBase`, about which the claims only need
non-negativity (established for the exact real-valued model by
`reductions_base_model_nonneg` below).  For `1 ≤ d, mc < 64` the non-PV
entry is `rBase d mc`, incremented when not improving and at least 2, and
the PV entry is `max (rBase d mc - 1) 0`; all other entries of the static
array stay zero-initialized. -/
def Reductions (rBase : Nat → Nat → Int) (pv imp : Bool) (d mc : Nat) : Int :=
  if d = 0 ∨ 64 ≤ d ∨ mc = 0 ∨ 64 ≤ mc then 0
  else if pv then max (rBase d mc - 1) 0
  else if imp = false ∧ 2 ≤ rBase d mc then rBase d mc + 1
  else rBase d mc

/-- Embedding of the `reduction<PvNode>(i, d, mn)` helper (`search.cpp`
67-69): index the table at `min(d / ONE_PLY, 63)` and `min(mn, 63)` and
scale by `ONE_PLY`. -/
def reduction (rBase : Nat → Nat → Int) (pv imp : Bool) (d mn : Int) : Int :=
  Reductions rBase pv imp (min (Int.tdiv d ONE_PLY) 63).toNat (min mn 63).toNat * ONE_PLY

/-! ### search.cpp: the main search function, steps 1-7 (lines 444-602), and
the quiescence search (lines 1042-1244)

Both functions are embedded over explicit environments.  A field of an
environment stands for the value the C++ code obtains from its
collaborators (`Position`, the TT probe, the stack frames, the thread) at
the corresponding read; the recursive child calls are oracle functions.
Transposition-table stores (`tte->save`) are returned as an explicit list
of `TTWrite` records, in program order. -/

/-- One `tte->save(...)` call: the stored value, bound, depth, move and
static eval (the position key and generation are fixed per invocation and
omitted). -/
structure TTWrite where
  value : Int
  bound : Nat
  depth : Int
  move : Nat
  eval : Int
  deriving DecidableEq

/-- Razoring margin (`search.cpp` line 59). -/
def razor_margin : Int := 600

/-- Futility margin `Value(150 * d / ONE_PLY)` (`search.cpp` line 61). -/
def futility_margin (d : Int) : Int := Int.tdiv (150 * d) ONE_PLY

/-- Embedding of step 6, razoring (`search.cpp` 583-595), reached only when
not in check and not skipping early pruning.  `qs a b` stands for the value
of `qsearch<NonPV, false>(pos, ss, a, b)`.  Returns `some v` when the step
returns `v` from `search`, `none` when the search falls through to step 7. -/
def razoring (pvNode : Bool) (depth alpha eval : Int) (qs : Int → Int → Int) : Option Int :=
  if pvNode = false ∧ depth < 4 * ONE_PLY ∧ eval + razor_margin ≤ alpha then
    if depth ≤ ONE_PLY then some (qs alpha (alpha + 1))
    else
      let ralpha := alpha - razor_margin
      let v := qs ralpha (ralpha + 1)
      if v ≤ ralpha then some v else none
  else none

/-- Environment of one `search<NT>` invocation (steps 1-7). -/
structure SEnv where
  /-- `NT == PV`. -/
  pvNode : Bool
  /-- `PvNode && ss->ply == 0`. -/
  rootNode : Bool
  /-- The shared `Threads.stop` flag as read at step 2. -/
  stop : Bool
  /-- `pos.is_draw(ss->ply)`. -/
  isDraw : Bool
  /-- `ss->ply`. -/
  ply : Nat
  /-- `pos.checkers() != 0`. -/
  inCheck : Bool
  /-- The `depth` argument. -/
  depth : Int
  /-- The `alpha` argument. -/
  alpha : Int
  /-- The `beta` argument. -/
  beta : Int
  /-- Whether `TT.probe(posKey, ttHit)` hit. -/
  ttHit : Bool
  /-- `tte->value()` on a hit. -/
  ttStoredValue : Int
  /-- `tte->eval()` on a hit. -/
  ttEval : Int
  /-- `tte->depth()` on a hit. -/
  ttDepthStored : Int
  /-- `tte->bound()` on a hit. -/
  ttBound : Nat
  /-- `(ss-1)->currentMove == MOVE_NULL`. -/
  prevMoveWasNull : Bool
  /-- `(ss-1)->staticEval`. -/
  prevStaticEval : Int
  /-- `evaluate(pos)`. -/
  evaluate : Int
  /-- The `skipEarlyPruning` argument. -/
  skipEarlyPruning : Bool
  /-- `pos.non_pawn_material(pos.side_to_move())`. -/
  nonPawnMaterialUs : Int
  /-- Oracle for the razoring calls `qsearch<NonPV, false>(pos, ss, a, b)`. -/
  qsearchOracle : Int → Int → Int

/-- The `alpha` after step 3, mate distance pruning (`search.cpp` 496). -/
def sAlpha (E : SEnv) : Int :=
  if E.rootNode then E.alpha else max (mated_in E.ply) E.alpha

/-- The `beta` after step 3, mate distance pruning (`search.cpp` 497). -/
def sBeta (E : SEnv) : Int :=
  if E.rootNode then E.beta else min (mate_in (E.ply + 1)) E.beta

/-- `ttValue` as decoded at step 4 (`search.cpp` 516). -/
def sttValue (E : SEnv) : Int :=
  if E.ttHit then value_from_tt E.ttStoredValue E.ply else VALUE_NONE

/-- The step 5 non-PV transposition-table cutoff condition
(`search.cpp` 521-526). -/
def sttCutoff (E : SEnv) : Bool :=
  !E.pvNode && E.ttHit && decide (E.ttDepthStored ≥ E.depth) &&
  decide (sttValue E ≠ VALUE_NONE) &&
  (if sttValue E ≥ sBeta E then decide (E.ttBound &&& BOUND_LOWER ≠ 0)
   else decide (E.ttBound &&& BOUND_UPPER ≠ 0))

/-- `ss->staticEval` as computed at step 5 when not in check
(`search.cpp` 559-574). -/
def sStaticEval (E : SEnv) : Int :=
  if E.ttHit then (if E.ttEval = VALUE_NONE then E.evaluate else E.ttEval)
  else if E.prevMoveWasNull then -E.prevStaticEval + 2 * Tempo
  else E.evaluate

/-- `eval` after the ttValue refinement of step 5 (`search.cpp` 566-568). -/
def sEval (E : SEnv) : Int :=
  if E.ttHit = true ∧ sttValue E ≠ VALUE_NONE ∧
      E.ttBound &&& (if sttValue E > sStaticEval E then BOUND_LOWER else BOUND_UPPER) ≠ 0
  then sttValue E else sStaticEval E

/-- Embedding of `search<NT>` steps 1-7 (`search.cpp` 444-602): abort/draw
check, mate distance pruning, transposition-table cutoff, static
evaluation with the `BOUND_NONE` stub store, razoring and child-node
futility pruning.  The continuation `rest`, applied to the refined `eval`
(`VALUE_NONE` when in check), abstracts everything from step 8 on (null
move, ProbCut, internal iterative deepening and the move loop); its result
pair is the returned value together with the TT stores it performs.  The
history updates inside the TT-cutoff branch touch only per-thread
heuristic tables, not the TT, so they do not appear among the writes. -/
def searchRun (E : SEnv) (rest : Int → Int × List TTWrite) : Int × List TTWrite :=
  if E.rootNode = false ∧ (E.stop = true ∨ E.isDraw = true ∨ E.ply ≥ MAX_PLY) then
    (if E.ply ≥ MAX_PLY ∧ E.inCheck = false then E.evaluate else VALUE_DRAW, [])
  else if E.rootNode = false ∧ sAlpha E ≥ sBeta E then (sAlpha E, [])
  else if sttCutoff E = true then (sttValue E, [])
  else if E.inCheck = true then rest VALUE_NONE
  else
    let stubW : List TTWrite :=
      if E.ttHit then []
      else [⟨VALUE_NONE, BOUND_NONE, DEPTH_NONE, MOVE_NONE, sStaticEval E⟩]
    if E.skipEarlyPruning = true ∨ E.nonPawnMaterialUs = 0 then
      let r := rest (sEval E)
      (r.1, stubW ++ r.2)
    else
      match razoring E.pvNode E.depth (sAlpha E) (sEval E) E.qsearchOracle with
      | some v => (v, stubW)
      | none =>
        if E.rootNode = false ∧ E.depth < 7 * ONE_PLY ∧
            sEval E - futility_margin E.depth ≥ sBeta E ∧ sEval E < VALUE_KNOWN_WIN then
          (sEval E, stubW)
        else
          let r := rest (sEval E)
          (r.1, stubW ++ r.2)

/-- One move yielded by the quiescence move picker, together with the
position-dependent quantities the loop body reads for it. -/
structure QMove where
  /-- The encoded move (never `MOVE_NONE`). -/
  move : Nat
  /-- The `givesCheck` computation (`search.cpp` 1150-1152). -/
  givesCheck : Bool
  /-- `PieceValue[EG][pos.piece_on(to_sq(move))]`. -/
  capturedEg : Int
  /-- `pos.advanced_pawn_push(move)`. -/
  advancedPawnPush : Bool
  /-- `pos.capture(move)`. -/
  isCapture : Bool
  /-- `pos.see_ge(move)`. -/
  seeGeZero : Bool
  /-- `pos.see_ge(move, VALUE_ZERO + 1)`. -/
  seeGeOne : Bool
  /-- `pos.legal(move)`. -/
  legal : Bool
  /-- Oracle for `-qsearch<NT, givesCheck>(pos, ss+1, -beta, -alpha,
  depth - ONE_PLY)` as a function of the current `alpha` (`beta` is fixed
  for the whole invocation). -/
  child : Int → Int

/-- Environment of one `qsearch<NT, InCheck>` invocation. -/
structure QEnv where
  /-- `NT == PV`. -/
  pvNode : Bool
  /-- The `InCheck` template argument (equal to `bool(pos.checkers())`). -/
  inCheck : Bool
  /-- `pos.is_draw(ss->ply)`. -/
  isDraw : Bool
  /-- `ss->ply`. -/
  ply : Nat
  /-- The `depth` argument (`≤ DEPTH_ZERO`). -/
  depth : Int
  /-- The `alpha` argument. -/
  alpha : Int
  /-- The `beta` argument. -/
  beta : Int
  /-- Whether `TT.probe(posKey, ttHit)` hit. -/
  ttHit : Bool
  /-- `tte->value()` on a hit. -/
  ttStoredValue : Int
  /-- `tte->eval()` on a hit. -/
  ttEval : Int
  /-- `tte->depth()` on a hit. -/
  ttDepthStored : Int
  /-- `tte->bound()` on a hit. -/
  ttBound : Nat
  /-- `(ss-1)->currentMove == MOVE_NULL`. -/
  prevMoveWasNull : Bool
  /-- `(ss-1)->staticEval`. -/
  prevStaticEval : Int
  /-- `evaluate(pos)`. -/
  evaluate : Int
  /-- The moves yielded by `mp.next_move()`, in order. -/
  moves : List QMove

/-- `ttDepth` (`search.cpp` 1083-1084). -/
def qttDepth (E : QEnv) : Int :=
  if E.inCheck = true ∨ E.depth ≥ DEPTH_QS_CHECKS then DEPTH_QS_CHECKS
  else DEPTH_QS_NO_CHECKS

/-- `ttValue` as decoded in qsearch (`search.cpp` 1089). -/
def qttValue (E : QEnv) : Int :=
  if E.ttHit then value_from_tt E.ttStoredValue E.ply else VALUE_NONE

/-- The non-PV transposition-table cutoff condition of qsearch
(`search.cpp` 1091-1096). -/
def qttCutoff (E : QEnv) : Bool :=
  !E.pvNode && E.ttHit && decide (E.ttDepthStored ≥ qttDepth E) &&
  decide (qttValue E ≠ VALUE_NONE) &&
  (if qttValue E ≥ E.beta then decide (E.ttBound &&& BOUND_LOWER ≠ 0)
   else decide (E.ttBound &&& BOUND_UPPER ≠ 0))

/-- `ss->staticEval` in the not-in-check branch (`search.cpp` 1107-1121). -/
def qStaticEval (E : QEnv) : Int :=
  if E.ttHit then (if E.ttEval = VALUE_NONE then E.evaluate else E.ttEval)
  else if E.prevMoveWasNull then -E.prevStaticEval + 2 * Tempo
  else E.evaluate

/-- The initial `bestValue` in the not-in-check branch, after the ttValue
refinement (`search.cpp` 1107-1121). -/
def qBestValue0 (E : QEnv) : Int :=
  if E.ttHit = true ∧ qttValue E ≠ VALUE_NONE ∧
      E.ttBound &&& (if qttValue E > qStaticEval E then BOUND_LOWER else BOUND_UPPER) ≠ 0
  then qttValue E else qStaticEval E

/-- The loop state of the qsearch move loop: `bestValue`, `alpha`,
`bestMove` and `moveCount`. -/
structure QState where
  bestValue : Int
  alpha : Int
  bestMove : Nat
  moveCount : Int
  deriving DecidableEq

/-- Embedding of the qsearch move loop (`search.cpp` 1146-1229): futility
pruning, evasion pruning, the negative-SEE filter, the legality check, the
recursive search of the move and the best-value/alpha/fail-high update.  A
`break` (fail high) stops the traversal and the after-loop code runs on the
state reached, exactly as in the source. -/
def qsearchLoop (E : QEnv) (futilityBase : Int) : List QMove → QState → QState
  | [], st => st
  | m :: ms, st =>
    let mc := st.moveCount + 1
    if E.inCheck = false ∧ m.givesCheck = false ∧ futilityBase > -VALUE_KNOWN_WIN ∧
        m.advancedPawnPush = false ∧ futilityBase + m.capturedEg ≤ st.alpha then
      qsearchLoop E futilityBase ms
        ⟨max st.bestValue (futilityBase + m.capturedEg), st.alpha, st.bestMove, mc⟩
    else if E.inCheck = false ∧ m.givesCheck = false ∧ futilityBase > -VALUE_KNOWN_WIN ∧
        m.advancedPawnPush = false ∧ futilityBase ≤ st.alpha ∧ m.seeGeOne = false then
      qsearchLoop E futilityBase ms ⟨max st.bestValue futilityBase, st.alpha, st.bestMove, mc⟩
    else if (E.inCheck = false ∨
        (E.inCheck = true ∧ (E.depth ≠ DEPTH_ZERO ∨ mc > 2) ∧
         st.bestValue > VALUE_MATED_IN_MAX_PLY ∧ m.isCapture = false)) ∧
        m.seeGeZero = false then
      qsearchLoop E futilityBase ms ⟨st.bestValue, st.alpha, st.bestMove, mc⟩
    else if m.legal = false then
      qsearchLoop E futilityBase ms ⟨st.bestValue, st.alpha, st.bestMove, mc - 1⟩
    else
      let value := m.child st.alpha
      if value > st.bestValue then
        if value > st.alpha then
          if E.pvNode = true ∧ value < E.beta then
            qsearchLoop E futilityBase ms ⟨value, value, m.move, mc⟩
          else ⟨value, st.alpha, m.move, mc⟩
        else qsearchLoop E futilityBase ms ⟨value, st.alpha, st.bestMove, mc⟩
      else qsearchLoop E futilityBase ms ⟨st.bestValue, st.alpha, st.bestMove, mc⟩

/-- Embedding of `qsearch<NT, InCheck>` (`search.cpp` 1042-1244): draw and
max-ply guard, TT probe with non-PV cutoff, static evaluation and stand
pat, the move loop, the in-check checkmate return, and the final TT store.
Returns the value together with the list of TT stores performed.  The
shared `Threads.stop` flag is passed as the explicit argument `stop`; the
body never uses it, mirroring the source, whose `qsearch` contains no read
of the flag. -/
def qsearchRun (stop : Bool) (E : QEnv) : Int × List TTWrite :=
  if E.isDraw = true ∨ E.ply ≥ MAX_PLY then
    (if E.ply ≥ MAX_PLY ∧ E.inCheck = false then E.evaluate else VALUE_DRAW, [])
  else if qttCutoff E = true then (qttValue E, [])
  else if E.inCheck = true then
    let st := qsearchLoop E (-VALUE_INFINITE) E.moves ⟨-VALUE_INFINITE, E.alpha, MOVE_NONE, 0⟩
    if st.bestValue = -VALUE_INFINITE then (mated_in E.ply, [])
    else
      (st.bestValue,
        [⟨value_to_tt st.bestValue E.ply,
          if st.bestValue ≥ E.beta then BOUND_LOWER
          else if E.pvNode = true ∧ st.bestValue > E.alpha then BOUND_EXACT
          else BOUND_UPPER,
          qttDepth E, st.bestMove, VALUE_NONE⟩])
  else
    let bv := qBestValue0 E
    if bv ≥ E.beta then
      (bv,
        if E.ttHit then []
        else [⟨value_to_tt bv E.ply, BOUND_LOWER, DEPTH_NONE, MOVE_NONE, qStaticEval E⟩])
    else
      let alpha1 := if E.pvNode = true ∧ bv > E.alpha then bv else E.alpha
      let st := qsearchLoop E (bv + 128) E.moves ⟨bv, alpha1, MOVE_NONE, 0⟩
      (st.bestValue,
        [⟨value_to_tt st.bestValue E.ply,
          if st.bestValue ≥ E.beta then BOUND_LOWER
          else if E.pvNode = true ∧ st.bestValue > E.alpha then BOUND_EXACT
          else BOUND_UPPER,
          qttDepth E, st.bestMove, qStaticEval E⟩])

/-! ### Claim C1: cancellation semantics of the stop flag -/

/-- A concrete qsearch environment with the stop flag raised: not in check,
no draw, no TT hit, static evaluation 50 against `beta = 10`. -/
def qstopEnv : QEnv :=
  { pvNode := false, inCheck := false, isDraw := false, ply := 5,
    depth := 0, alpha := 9, beta := 10, ttHit := false, ttStoredValue := 0,
    ttEval := 0, ttDepthStored := 0, ttBound := 0, prevMoveWasNull := false,
    prevStaticEval := 0, evaluate := 50, moves := [] }

/-- A concrete non-root search environment entered with the stop flag
raised. -/
def stopSEnv : SEnv :=
  { pvNode := false, rootNode := false, stop := true, isDraw := false, ply := 3,
    inCheck := false, depth := 2, alpha := -1, beta := 0, ttHit := false,
    ttStoredValue := 0, ttEval := 0, ttDepthStored := 0, ttBound := 0,
    prevMoveWasNull := false, prevStaticEval := 0, evaluate := 25,
    skipEarlyPruning := false, nonPawnMaterialUs := 5000,
    qsearchOracle := fun _ _ => 0 }

/-! ### Claim C4: the quiescence checkmate return -/

/-- A concrete in-check qsearch environment whose move picker yields one
pseudo-legal evasion that is illegal. -/
def qMateEnv : QEnv :=
  { pvNode := false, inCheck := true, isDraw := false, ply := 3,
    depth := 0, alpha := -1, beta := 0, ttHit := false, ttStoredValue := 0,
    ttEval := 0, ttDepthStored := 0, ttBound := 0, prevMoveWasNull := false,
    prevStaticEval := 0, evaluate := 0,
    moves := [{ move := 77, givesCheck := false, capturedEg := 0,
                advancedPawnPush := false, isCapture := false, seeGeZero := true,
                seeGeOne := true, legal := false, child := fun _ => 0 }] }

/-- A concrete in-check qsearch environment generating no moves at all. -/
def qNoMovesEnv : QEnv :=
  { pvNode := false, inCheck := true, isDraw := false, ply := 6,
    depth := 0, alpha := -1, beta := 0, ttHit := false, ttStoredValue := 0,
    ttEval := 0, ttDepthStored := 0, ttBound := 0, prevMoveWasNull := false,
    prevStaticEval := 0, evaluate := 0, moves := [] }

/-!
## Part 2: the theorems
-/

/-! ### Claim C2: transposition-table round trip of mate scores -/

/-- Claim C2, counterexample: the round trip `value_from_tt ∘ value_to_tt`
is not the identity on every `v ≠ VALUE_NONE`: storing `v = VALUE_MATE` at
`ply = 2` shifts it onto the sentinel `VALUE_NONE = VALUE_MATE + 2`, which
`value_from_tt` then passes through, so the trip returns `VALUE_NONE`
instead of `VALUE_MATE`. -/
theorem value_tt_roundtrip_cex :
    VALUE_MATE ≠ VALUE_NONE ∧
    value_from_tt (value_to_tt VALUE_MATE 2) 2 = VALUE_NONE ∧
    value_from_tt (value_to_tt VALUE_MATE 2) 2 ≠ VALUE_MATE := by
  refine ⟨by decide, by decide, by decide⟩

/-- Claim C2 (amended): for every value `v ≠ VALUE_NONE` and ply, the
translation of scores into and out of the transposition table is a round
trip, provided the stored image `value_to_tt v ply` does not collide with
the sentinel `VALUE_NONE`. -/
theorem value_tt_roundtrip (v : Int) (ply : Nat) (h1 : v ≠ VALUE_NONE)
    (h2 : value_to_tt v ply ≠ VALUE_NONE) :
    value_from_tt (value_to_tt v ply) ply = v := by
  unfold value_to_tt value_from_tt at *
  unfold VALUE_NONE VALUE_MATE_IN_MAX_PLY VALUE_MATED_IN_MAX_PLY VALUE_MATE at *
  split at h2 <;> split <;> omega

/-- Claim C2 witness: the amended round trip evaluated at a representative
mate score `mate_in 7 = 31993` stored from ply 3. -/
theorem value_tt_roundtrip_witness :
    value_from_tt (value_to_tt (VALUE_MATE - 7) 3) 3 = VALUE_MATE - 7 :=
  value_tt_roundtrip (VALUE_MATE - 7) 3 (by decide) (by decide)

/-! ### Claim C5: initiative correction only shifts the endgame component
and cannot flip its sign -/

/-- Helper: the capped bonus `cppSign eg * max I (-|eg|)` never flips the
sign of `eg` when added to it, for any initiative value `I`. -/
theorem initiative_cap (I eg : Int) :
    (0 < eg → 0 ≤ eg + cppSign eg * max I (-|eg|)) ∧
    (eg < 0 → eg + cppSign eg * max I (-|eg|) ≤ 0) ∧
    (eg = 0 → cppSign eg * max I (-|eg|) = 0) := by
  refine ⟨fun h => ?_, fun h => ?_, fun h => ?_⟩
  · rw [abs_of_pos h]
    have h1 := le_max_right I (-eg)
    have hs : cppSign eg = 1 := by unfold cppSign; rw [if_pos h, if_neg (by omega)]; omega
    rw [hs]; omega
  · rw [abs_of_neg h]
    have h1 := le_max_right I (- -eg)
    have hs : cppSign eg = -1 := by unfold cppSign; rw [if_neg (by omega), if_pos h]; omega
    rw [hs]; omega
  · subst h; simp [cppSign]

/-- Claim C5: for every position data (pawn asymmetry, king file/rank
distances, pawn count, both-flanks flag) and every endgame value `eg`,
`evaluate_initiative` returns a score with zero middlegame component whose
endgame correction `v` is capped so that `eg + v` is zero or keeps the sign
of `eg`; in particular `v = 0` when `eg = 0`. -/
theorem evaluate_initiative_sign (pawnAsymmetry fileDistance rankDistance pawnCount : Int)
    (bothFlanks : Bool) (eg : Int) :
    (evaluate_initiative pawnAsymmetry fileDistance rankDistance pawnCount bothFlanks eg).mg = 0 ∧
    (0 < eg → 0 ≤ eg + (evaluate_initiative pawnAsymmetry fileDistance rankDistance pawnCount bothFlanks eg).eg) ∧
    (eg < 0 → eg + (evaluate_initiative pawnAsymmetry fileDistance rankDistance pawnCount bothFlanks eg).eg ≤ 0) ∧
    (eg = 0 → (evaluate_initiative pawnAsymmetry fileDistance rankDistance pawnCount bothFlanks eg).eg = 0) := by
  have h := initiative_cap (8 * (pawnAsymmetry + (fileDistance - rankDistance) - 17)
      + 12 * pawnCount + 16 * (if bothFlanks then 1 else 0)) eg
  exact ⟨rfl, h.1, h.2.1, h.2.2⟩

/-- Claim C5 witness: the sign property evaluated at concrete inputs
(asymmetry 3, king distances 4 and 1, five pawns, both flanks, `eg = 37`). -/
theorem evaluate_initiative_sign_witness :
    (0:Int) < 37 ∧ 0 ≤ 37 + (evaluate_initiative 3 4 1 5 true 37).eg :=
  ⟨by decide, (evaluate_initiative_sign 3 4 1 5 true 37).2.1 (by decide)⟩

/-! ### Claim C6: lazy exit of the classical evaluator -/

/-- Claim C6: in `Evaluation::value`, once the score has been seeded with
`psq + imbalance + pawn score` (and no specialized endgame evaluation
exists), if the absolute half-sum `|(mg + eg)/2|` exceeds
`LazyThreshold = 1500` the function returns that half-sum for White and its
negation for Black immediately: the result is independent of all remaining
evaluation terms (the universally quantified continuation `rest`) and of
the constants `LazyThreshold1`/`LazyThreshold2` (the universally quantified
parameters `lt1`, `lt2`), which the classical path never consults. -/
theorem lazy_exit (lt1 lt2 : Int) (P : EvalPos) (rest : Score → Int)
    (hspec : P.specializedEval = none)
    (hv : |Int.tdiv (mg_value (P.psqScore + P.imbalance + P.pawnsScore)
        + eg_value (P.psqScore + P.imbalance + P.pawnsScore)) 2| > LazyThreshold) :
    Evaluation.value lt1 lt2 P rest =
      (if P.whiteToMove then
        Int.tdiv (mg_value (P.psqScore + P.imbalance + P.pawnsScore)
          + eg_value (P.psqScore + P.imbalance + P.pawnsScore)) 2
      else
        -(Int.tdiv (mg_value (P.psqScore + P.imbalance + P.pawnsScore)
          + eg_value (P.psqScore + P.imbalance + P.pawnsScore)) 2)) := by
  unfold Evaluation.value
  rw [hspec]
  simp only [if_pos hv]

/-- Claim C6 witness: a position seeded to `psq = (4000, 0)` has half-sum
2000 above the threshold; the classical value is 2000 regardless of the
continuation and of `LazyThreshold1`/`LazyThreshold2`. -/
theorem lazy_exit_witness :
    Evaluation.value LazyThreshold1 LazyThreshold2
      ⟨none, ⟨4000, 0⟩, ⟨0, 0⟩, ⟨0, 0⟩, true⟩ (fun _ => 0) = 2000 := by
  have h := lazy_exit LazyThreshold1 LazyThreshold2
    ⟨none, ⟨4000, 0⟩, ⟨0, 0⟩, ⟨0, 0⟩, true⟩ (fun _ => 0) rfl (by decide)
  simpa using h

/-! ### Claim C10: killer-pair distinctness invariant -/

/-- Helper: one `update_stats` call preserves the killer-pair invariant. -/
theorem killers_step_inv (k : Nat × Nat) (m : Nat) (hk : killersInv k) :
    killersInv (update_stats_killers k m) := by
  unfold update_stats_killers
  by_cases h : k.1 ≠ m
  · rw [if_pos h]
    exact Or.inl (fun he => h he.symm)
  · rw [if_neg h]
    exact hk

/-- Helper: the invariant holds after any sequence of killer updates from
an invariant state. -/
theorem killers_foldl_inv (ms : List Nat) (k : Nat × Nat) (hk : killersInv k) :
    killersInv (ms.foldl update_stats_killers k) := by
  induction ms generalizing k with
  | nil => exact hk
  | cons a t ih => exact ih _ (killers_step_inv k a hk)

/-- Claim C10: from the zero-initialized pair `(MOVE_NONE, MOVE_NONE)`,
every sequence of `update_stats` killer updates maintains
`killers[0] ≠ killers[1]` unless both are `MOVE_NONE`; a call whose move
already equals `killers[0]` leaves the pair unchanged, and otherwise the
pair becomes `(move, old killers[0])` with distinct entries. -/
theorem update_stats_killers_spec (ms : List Nat) (k : Nat × Nat) (m : Nat)
    (hk : killersInv k) :
    killersInv (update_stats_killers k m) ∧
    (k.1 = m → update_stats_killers k m = k) ∧
    (k.1 ≠ m → update_stats_killers k m = (m, k.1) ∧ m ≠ k.1) ∧
    killersInv (ms.foldl update_stats_killers (MOVE_NONE, MOVE_NONE)) := by
  refine ⟨killers_step_inv k m hk, fun he => ?_, fun hne => ?_, ?_⟩
  · unfold update_stats_killers
    rw [if_neg (by simpa using he)]
  · exact ⟨by unfold update_stats_killers; rw [if_pos hne], fun he => hne he.symm⟩
  · exact killers_foldl_inv ms _ (Or.inr ⟨rfl, rfl⟩)

/-- Claim C10 witness: the invariant evaluated after the concrete update
sequence `[7, 9, 7, 12]` from the zero pair, plus one concrete step. -/
theorem update_stats_killers_spec_witness :
    killersInv (update_stats_killers (MOVE_NONE, MOVE_NONE) 7) ∧
    killersInv ([7, 9, 7, 12].foldl update_stats_killers (MOVE_NONE, MOVE_NONE)) :=
  ⟨(update_stats_killers_spec [] (MOVE_NONE, MOVE_NONE) 7 (Or.inr ⟨rfl, rfl⟩)).1,
   (update_stats_killers_spec [7, 9, 7, 12] (MOVE_NONE, MOVE_NONE) 7 (Or.inr ⟨rfl, rfl⟩)).2.2.2⟩

/-! ### Claim C7: aspiration window management -/

/-- Claim C7: when `rootDepth ≥ 5 * ONE_PLY` the aspiration window starts as
`[previousScore - 18, previousScore + 18]` clamped to `±VALUE_INFINITE`
with `delta = 18`; in the re-search loop (when the stop flag is not
raised), a fail-low (`bestValue ≤ alpha`) re-searches with
`beta := (alpha + beta)/2`, `alpha := max(bestValue - delta,
-VALUE_INFINITE)` and `delta := delta + delta/4 + 5`; a fail-high
(`bestValue ≥ beta`) re-searches with
`beta := min(bestValue + delta, VALUE_INFINITE)` and the same `delta`
update; otherwise the loop exits with `bestValue`. -/
theorem aspiration_spec (rootDepth previousScore alpha0 beta0 delta0 : Int)
    (sf : Nat → Int → Int → Int) (stopAt : Nat → Bool) (fuel k : Nat)
    (alpha beta delta : Int) (hs : stopAt k = false) (hd : rootDepth ≥ 5 * ONE_PLY) :
    aspirationWindow rootDepth previousScore alpha0 beta0 delta0 =
      (max (previousScore - 18) (-VALUE_INFINITE),
       min (previousScore + 18) VALUE_INFINITE, 18) ∧
    (sf k alpha beta ≤ alpha →
      aspirationLoop sf stopAt (fuel + 1) k alpha beta delta =
        aspirationLoop sf stopAt fuel (k + 1)
          (max (sf k alpha beta - delta) (-VALUE_INFINITE))
          (Int.tdiv (alpha + beta) 2) (delta + Int.tdiv delta 4 + 5)) ∧
    (¬ sf k alpha beta ≤ alpha → sf k alpha beta ≥ beta →
      aspirationLoop sf stopAt (fuel + 1) k alpha beta delta =
        aspirationLoop sf stopAt fuel (k + 1) alpha
          (min (sf k alpha beta + delta) VALUE_INFINITE)
          (delta + Int.tdiv delta 4 + 5)) ∧
    (¬ sf k alpha beta ≤ alpha → ¬ sf k alpha beta ≥ beta →
      aspirationLoop sf stopAt (fuel + 1) k alpha beta delta = sf k alpha beta) := by
  refine ⟨by unfold aspirationWindow; rw [if_pos hd], fun h1 => ?_, fun h1 h2 => ?_,
    fun h1 h2 => ?_⟩
  · show (if stopAt k then _ else _) = _
    rw [if_neg (by simp [hs]), if_pos h1]
  · show (if stopAt k then _ else _) = _
    rw [if_neg (by simp [hs]), if_neg h1, if_pos h2]
  · show (if stopAt k then _ else _) = _
    rw [if_neg (by simp [hs]), if_neg h1, if_neg h2]

/-- Claim C7 witness: with a search oracle returning 0 inside the window
`(-30, 30)`, the loop exits immediately with that value. -/
theorem aspiration_spec_witness :
    aspirationLoop (fun _ _ _ => 0) (fun _ => false) 1 0 (-30) 30 18 = 0 := by
  have h := (aspiration_spec 5 0 0 0 0 (fun _ _ _ => 0) (fun _ => false) 0 0
    (-30) 30 18 rfl (by decide)).2.2.2
  exact h (by decide) (by decide)

/-! ### search.cpp: best-thread selection in MainThread::search (lines 217-231) -/

/-- Helper: the fold either keeps its accumulator or some listed thread
beat that accumulator in its comparison. -/
theorem foldl_selectStep_cases (threads : List ThreadResult) (acc : ThreadResult) :
    threads.foldl selectStep acc = acc ∨
    ∃ th ∈ threads, th.score - acc.score > 0 ∧
      (th.completedDepth - acc.completedDepth ≥ 0 ∨ th.score ≥ VALUE_MATE_IN_MAX_PLY) := by
  induction threads generalizing acc with
  | nil => exact Or.inl rfl
  | cons a t ih =>
    by_cases h : a.score - acc.score > 0 ∧
        (a.completedDepth - acc.completedDepth ≥ 0 ∨ a.score ≥ VALUE_MATE_IN_MAX_PLY)
    · exact Or.inr ⟨a, List.mem_cons_self a t, h⟩
    · rw [List.foldl_cons, selectStep, if_neg h]
      rcases ih acc with h1 | ⟨th, hm, hc⟩
      · exact Or.inl h1
      · exact Or.inr ⟨th, List.mem_cons_of_mem a hm, hc⟩

/-! ### Claim C8: coordinator keeps main unless a worker strictly beats it -/

/-- Claim C8: under the `MultiPV == 1`, non-null-PV guard, the coordinator
returns the main thread's result unless some thread in the list has a
strictly greater root-move score together with a completed depth at least
that of the then-current best (which starts as main) or a proven mate
score; and each individual comparison replaces the running best exactly
under that condition. -/
theorem pickBestThread_spec (main : ThreadResult) (threads : List ThreadResult)
    (multiPV : Nat) (mainPvMove : Nat) (h1 : multiPV = 1) (h2 : mainPvMove ≠ MOVE_NONE) :
    (pickBestThread multiPV mainPvMove main threads = main ∨
      ∃ th ∈ threads, main.score < th.score ∧
        (main.completedDepth ≤ th.completedDepth ∨ th.score ≥ VALUE_MATE_IN_MAX_PLY)) ∧
    (∀ b th, selectStep b th =
      if b.score < th.score ∧
          (b.completedDepth ≤ th.completedDepth ∨ th.score ≥ VALUE_MATE_IN_MAX_PLY)
      then th else b) := by
  constructor
  · rcases foldl_selectStep_cases threads main with h | ⟨th, hm, hc⟩
    · left
      unfold pickBestThread
      rw [if_pos ⟨h1, h2⟩]
      exact h
    · right
      refine ⟨th, hm, by omega, ?_⟩
      rcases hc.2 with h | h
      · exact Or.inl (by omega)
      · exact Or.inr h
  · intro b th
    unfold selectStep
    by_cases h : th.score - b.score > 0 ∧
        (th.completedDepth - b.completedDepth ≥ 0 ∨ th.score ≥ VALUE_MATE_IN_MAX_PLY)
    · rw [if_pos h, if_pos ⟨by omega, by rcases h.2 with h' | h'; exact Or.inl (by omega); exact Or.inr h'⟩]
    · rw [if_neg h, if_neg ?_]
      intro hc
      apply h
      refine ⟨by omega, ?_⟩
      rcases hc.2 with h' | h'
      · exact Or.inl (by omega)
      · exact Or.inr h'

/-- Claim C8 witness: a worker with score 30 at equal depth 20 beats the
main thread's score 10: the selection does not keep main. -/
theorem pickBestThread_spec_witness :
    (pickBestThread 1 5 ⟨10, 20⟩ [⟨30, 20⟩] = ⟨10, 20⟩ ∨
      ∃ th ∈ [(⟨30, 20⟩ : ThreadResult)], (10:Int) < th.score ∧
        ((20:Int) ≤ th.completedDepth ∨ th.score ≥ VALUE_MATE_IN_MAX_PLY)) ∧
    selectStep ⟨10, 20⟩ ⟨30, 20⟩ =
      (if (10:Int) < 30 ∧ ((20:Int) ≤ 20 ∨ (30:Int) ≥ VALUE_MATE_IN_MAX_PLY)
       then (⟨30, 20⟩ : ThreadResult) else ⟨10, 20⟩) :=
  ⟨(pickBestThread_spec ⟨10, 20⟩ [⟨30, 20⟩] 1 5 rfl (by decide)).1,
   (pickBestThread_spec ⟨10, 20⟩ [⟨30, 20⟩] 1 5 rfl (by decide)).2 ⟨10, 20⟩ ⟨30, 20⟩⟩

/-! ### search.cpp: reduction tables (lines 63-69 and Search::init 123-144) -/

/-- Supporting fact for the real-valued model of the table base: the
rounded product of logarithms in `Search::init` is non-negative for all
`d, mc ≥ 1`, which justifies the non-negativity hypothesis `hR` of
`reduction_spec`. -/
theorem reductions_base_model_nonneg (d mc : Nat) (hd : 1 ≤ d) (hmc : 1 ≤ mc) :
    0 ≤ round (Real.log d * Real.log mc / 1.95) := by
  have h1 : (0:ℝ) ≤ Real.log d := Real.log_nonneg (by exact_mod_cast hd)
  have h2 : (0:ℝ) ≤ Real.log mc := Real.log_nonneg (by exact_mod_cast hmc)
  have h3 : (0:ℝ) ≤ Real.log d * Real.log mc / 1.95 := by positivity
  rw [round_eq, Int.le_floor]
  push_cast
  linarith

/-! ### Claim C9: reduction lookups stay in bounds and are non-negative -/

/-- Claim C9: for any non-negative table base, any flags, any depth
`d ≥ ONE_PLY` and move number `mn ≥ 1`, the `reduction` helper indexes the
table only at `min(d / ONE_PLY, 63)` and `min(mn, 63)` — both strictly
below the table dimension 64 however large `d` and `mn` are — and the
returned reduction is a non-negative multiple of `ONE_PLY`. -/
theorem reduction_spec (rBase : Nat → Nat → Int) (hR : ∀ d mc, 0 ≤ rBase d mc)
    (pv imp : Bool) (d mn : Int) (hd : ONE_PLY ≤ d) (hmn : 1 ≤ mn) :
    (min (Int.tdiv d ONE_PLY) 63).toNat < 64 ∧ (min mn 63).toNat < 64 ∧
    0 ≤ reduction rBase pv imp d mn ∧ ONE_PLY ∣ reduction rBase pv imp d mn := by
  have hb1 : min (Int.tdiv d ONE_PLY) 63 ≤ 63 := min_le_right _ _
  have hb2 : min mn 63 ≤ 63 := min_le_right _ _
  have hnn : 0 ≤ Reductions rBase pv imp (min (Int.tdiv d ONE_PLY) 63).toNat
      (min mn 63).toNat := by
    unfold Reductions
    split
    · exact le_refl 0
    · split
      · exact le_max_right _ 0
      · split
        · have := hR (min (Int.tdiv d ONE_PLY) 63).toNat (min mn 63).toNat
          omega
        · exact hR _ _
  refine ⟨by omega, by omega, ?_, dvd_mul_left ONE_PLY _⟩
  unfold reduction
  have : (0:Int) < ONE_PLY := by decide
  exact mul_nonneg hnn (by omega)

/-- Claim C9 witness: the bounds-and-sign property evaluated at the
constant base 2, depth 200 and move number 90 (both beyond the table
dimensions, exercising the clamping). -/
theorem reduction_spec_witness :
    (min (Int.tdiv 200 ONE_PLY) 63).toNat < 64 ∧ (min (90:Int) 63).toNat < 64 ∧
    0 ≤ reduction (fun _ _ => 2) false false 200 90 ∧
    ONE_PLY ∣ reduction (fun _ _ => 2) false false 200 90 :=
  reduction_spec (fun _ _ => 2) (by intro a b; show (0:Int) ≤ 2; decide) false false 200 90
    (by decide) (by decide)

/-! ### Helper lemmas about the qsearch move loop -/

/-- Helper: the loop never decreases `bestValue`. -/
theorem qsearchLoop_bestValue_mono (E : QEnv) (fb : Int) (ms : List QMove) :
    ∀ st : QState, st.bestValue ≤ (qsearchLoop E fb ms st).bestValue := by
  induction ms with
  | nil => intro st; exact le_refl _
  | cons m t ih =>
    intro st
    simp only [qsearchLoop]
    split_ifs with h1 h2 h3 h4 h5 h6 h7
    · exact le_trans (le_max_left _ _) (ih _)
    · exact le_trans (le_max_left _ _) (ih _)
    · exact ih _
    · exact ih _
    · exact le_trans (le_of_lt h5) (ih _)
    · exact le_of_lt h5
    · exact le_trans (le_of_lt h5) (ih _)
    · exact ih _

/-- Helper: a strict lower bound on `bestValue` is preserved by the loop. -/
theorem qsearchLoop_bestValue_gt (E : QEnv) (fb : Int) (ms : List QMove) (st : QState)
    (h : -VALUE_INFINITE < st.bestValue) :
    -VALUE_INFINITE < (qsearchLoop E fb ms st).bestValue :=
  lt_of_lt_of_le h (qsearchLoop_bestValue_mono E fb ms st)

/-- Helper: in check, starting from `bestValue = -VALUE_INFINITE`, the loop
leaves `bestValue` at `-VALUE_INFINITE` exactly when every generated move is
illegal (given that child searches return values above `-VALUE_INFINITE`,
which mirrors the assertion `value > -VALUE_INFINITE` in the source). -/
theorem qsearchLoop_incheck_mate (E : QEnv) (hic : E.inCheck = true) :
    ∀ ms : List QMove, (∀ m ∈ ms, ∀ a, -VALUE_INFINITE < m.child a) →
    ∀ (alpha : Int) (bm : Nat) (mc : Int),
      ((qsearchLoop E (-VALUE_INFINITE) ms ⟨-VALUE_INFINITE, alpha, bm, mc⟩).bestValue
        = -VALUE_INFINITE) ↔ ∀ m ∈ ms, m.legal = false := by
  intro ms
  induction ms with
  | nil => intro _ alpha bm mc; simp [qsearchLoop]
  | cons m t ih =>
    intro hchild alpha bm mc
    have hchild_t : ∀ m' ∈ t, ∀ a, -VALUE_INFINITE < m'.child a :=
      fun m' hm' => hchild m' (List.mem_cons_of_mem m hm')
    have hchild_m := hchild m (List.mem_cons_self m t)
    simp only [qsearchLoop]
    rw [if_neg (by simp [hic]), if_neg (by simp [hic]),
        if_neg (by rintro ⟨h | ⟨-, -, h3, -⟩, -⟩
                   · rw [hic] at h; cases h
                   · exact absurd h3 (by decide))]
    by_cases hleg : m.legal = false
    · rw [if_pos hleg, ih hchild_t alpha bm (mc + 1 - 1), List.forall_mem_cons]
      simp [hleg]
    · rw [if_neg hleg]
      have hm : m.legal = true := by revert hleg; cases m.legal <;> simp
      have hv := hchild_m alpha
      rw [if_pos (show m.child alpha > -VALUE_INFINITE from hv)]
      constructor
      · intro hend
        exfalso
        split_ifs at hend with h6 h7
        · exact absurd hend (ne_of_gt (qsearchLoop_bestValue_gt E _ t _ hv))
        · exact absurd hend (ne_of_gt hv)
        · exact absurd hend (ne_of_gt (qsearchLoop_bestValue_gt E _ t _ hv))
      · intro hall
        exact absurd (hall m (List.mem_cons_self m t)) (by simp [hm])

/-! ### Claim C1: cancellation semantics of the stop flag -/

/-- Claim C1, counterexample: with the stop flag set, a quiescence-search
invocation (stand pat in `qstopEnv`) returns the nonzero value 50 and
stores a transposition-table entry: `qsearch` does not return `VALUE_ZERO`
on stop and does update the TT, because its body never reads the flag. -/
theorem stop_cancellation_cex :
    qsearchRun true qstopEnv = (50, [⟨50, BOUND_LOWER, DEPTH_NONE, MOVE_NONE, 50⟩]) ∧
    (50 : Int) ≠ VALUE_ZERO :=
  ⟨rfl, by decide⟩

/-- Claim C1 (amended): setting the stop flag makes every running non-root
`search` invocation return `VALUE_DRAW` (`= VALUE_ZERO = 0`) at its step-2
check, below the max-ply guard, without storing anything into the
transposition table (for any continuation `rest`, i.e. whatever steps 8-20
would have done); `qsearch`, by contrast, never observes the stop flag: its
result and its TT stores are independent of the flag's value. -/
theorem stop_cancellation (E : SEnv) (rest : Int → Int × List TTWrite)
    (Q : QEnv) (s s' : Bool)
    (hstop : E.stop = true) (hroot : E.rootNode = false) (hply : E.ply < MAX_PLY) :
    searchRun E rest = (VALUE_DRAW, []) ∧
    qsearchRun s Q = qsearchRun s' Q := by
  constructor
  · unfold searchRun
    rw [if_pos ⟨hroot, Or.inl hstop⟩, if_neg (fun h => absurd h.1 (by omega))]
  · rfl

/-- Claim C1 witness: the amended statement applied to the concrete
environments `stopSEnv` (stop raised, non-root, ply 3) and `qstopEnv`. -/
theorem stop_cancellation_witness :
    searchRun stopSEnv (fun _ => (123, [⟨0, 0, 0, 0, 0⟩])) = (VALUE_DRAW, []) ∧
    qsearchRun true qstopEnv = qsearchRun false qstopEnv :=
  stop_cancellation stopSEnv (fun _ => (123, [⟨0, 0, 0, 0, 0⟩])) qstopEnv true false
    rfl rfl (by decide)

/-! ### Claim C3: razoring returns and their qsearch confirmation -/

/-- Claim C3, counterexample: at a non-PV node with `depth = ONE_PLY`,
`alpha = 0` and `eval = -600` (so `eval + razor_margin ≤ alpha` holds), the
razoring step returns whatever the null-window qsearch returns — here 7 —
with no confirmation test: 7 is not `≤ alpha - razor_margin`, and is not
even `≤ alpha`, yet it is returned. -/
theorem razoring_cex :
    razoring false ONE_PLY 0 (-600) (fun _ _ => 7) = some 7 ∧
    ¬ ((7 : Int) ≤ 0 - razor_margin) ∧ ¬ ((7 : Int) ≤ 0) :=
  ⟨rfl, by decide, by decide⟩

/-- Claim C3 (amended): every razoring return happens at a non-PV node with
`depth < 4 * ONE_PLY` and `eval + razor_margin ≤ alpha`; for
`ONE_PLY < depth` the returned value is the reduced-window qsearch value
and is confirmed `≤ alpha - razor_margin`, while for `depth ≤ ONE_PLY` the
step returns the `(alpha, alpha+1)` null-window qsearch value
unconditionally, with no confirmation test. -/
theorem razoring_spec (pv : Bool) (depth alpha eval : Int)
    (qs : Int → Int → Int) (v : Int) (h : razoring pv depth alpha eval qs = some v) :
    (pv = false ∧ depth < 4 * ONE_PLY ∧ eval + razor_margin ≤ alpha) ∧
    (depth ≤ ONE_PLY → v = qs alpha (alpha + 1)) ∧
    (ONE_PLY < depth →
      v = qs (alpha - razor_margin) (alpha - razor_margin + 1) ∧
      v ≤ alpha - razor_margin) := by
  unfold razoring at h
  by_cases hg : pv = false ∧ depth < 4 * ONE_PLY ∧ eval + razor_margin ≤ alpha
  · rw [if_pos hg] at h
    refine ⟨hg, fun hdl => ?_, fun hdg => ?_⟩
    · rw [if_pos hdl] at h
      exact (Option.some.inj h).symm
    · rw [if_neg (by omega)] at h
      dsimp only at h
      split at h
      · exact ⟨(Option.some.inj h).symm, (Option.some.inj h) ▸ (by assumption)⟩
      · exact absurd h (by simp)
  · rw [if_neg hg] at h
    exact absurd h (by simp)

/-- Claim C3 witness: a confirmed razoring return at `depth = 2 * ONE_PLY`:
the oracle returns `alpha - 601 ≤ alpha - razor_margin`, so the theorem
yields the guard conjunction and the confirmation. -/
theorem razoring_spec_witness :
    ((false = false ∧ 2 < 4 * ONE_PLY ∧ (-601 : Int) + razor_margin ≤ 0) ∧
     ((2 : Int) ≤ ONE_PLY → (-601 : Int) = (fun a _ => a - 1) (0 : Int) (0 + 1)) ∧
     (ONE_PLY < 2 → (-601 : Int) = (fun a _ => a - 1) ((0 : Int) - razor_margin)
        ((0 : Int) - razor_margin + 1) ∧ (-601 : Int) ≤ (0 : Int) - razor_margin)) :=
  razoring_spec false 2 0 (-601) (fun a _ => a - 1) (-601) rfl

/-! ### Claim C4: the quiescence checkmate return -/

/-- Claim C4, counterexample: in `qMateEnv` the side to move is in check and
the move picker generates one (illegal) move, yet qsearch returns the
checkmate score `mated_in 3`: the checkmate score is not returned exactly
in the no-move-generated case. -/
theorem qsearch_mate_cex :
    qsearchRun false qMateEnv = (mated_in 3, []) ∧ qMateEnv.moves ≠ [] :=
  ⟨rfl, by simp [qMateEnv]⟩

/-- Claim C4 (amended): a quiescence invocation in check that reaches its
move loop (no draw or max-ply exit, no transposition-table cutoff), with
child searches above `-VALUE_INFINITE` as the source asserts, returns the
checkmate score `mated_in ply` — with no TT store — exactly when no
generated move is legal; in particular it does so when no moves are
generated at all, but also when moves are generated and all are illegal. -/
theorem qsearch_mate_spec (qstop : Bool) (E : QEnv) (hic : E.inCheck = true)
    (hdraw : E.isDraw = false) (hply : E.ply < MAX_PLY)
    (hcut : qttCutoff E = false)
    (hchild : ∀ m ∈ E.moves, ∀ a, -VALUE_INFINITE < m.child a) :
    qsearchRun qstop E = (mated_in E.ply, ([] : List TTWrite)) ↔
      ∀ m ∈ E.moves, m.legal = false := by
  unfold qsearchRun
  have hg1 : ¬ (E.isDraw = true ∨ E.ply ≥ MAX_PLY) := by
    rintro (h | h)
    · rw [hdraw] at h; cases h
    · omega
  rw [if_neg hg1, if_neg (by simp [hcut]), if_pos hic]
  dsimp only
  by_cases hbv : (qsearchLoop E (-VALUE_INFINITE) E.moves
      ⟨-VALUE_INFINITE, E.alpha, MOVE_NONE, 0⟩).bestValue = -VALUE_INFINITE
  · rw [if_pos hbv]
    constructor
    · intro _
      exact (qsearchLoop_incheck_mate E hic E.moves hchild E.alpha MOVE_NONE 0).mp hbv
    · intro _
      rfl
  · rw [if_neg hbv]
    constructor
    · intro h
      exact absurd (congrArg Prod.snd h) (by simp)
    · intro h
      exact absurd ((qsearchLoop_incheck_mate E hic E.moves hchild E.alpha MOVE_NONE 0).mpr h) hbv

/-- Claim C4 witness: the amended statement applied to an in-check
environment generating no moves: the call returns `mated_in 6` with no TT
store. -/
theorem qsearch_mate_spec_witness :
    qsearchRun false qNoMovesEnv = (mated_in 6, []) :=
  (qsearch_mate_spec false qNoMovesEnv rfl rfl (by decide) rfl
    (by simp [qNoMovesEnv])).mpr (by simp [qNoMovesEnv])
